import Mathlib

/-!
A shallow embedding of the status-rendering and diagnostics code of
`mosfit/printer.py` (class `Printer`), together with theorems checking the
natural-language specification against it.

Modelling conventions:
* Python floats are modelled as exact rationals (`ℚ`); where the code can
  receive non-finite floats (the PSRF value, heatmap cells) we use the
  four-state type `PyExt` (finite / +inf / -inf / NaN) with the comparison
  semantics of IEEE floats restricted to the comparisons the code performs.
  All numeric literals in the relevant branches (0.0, 1.2, 2.0, 5.0, 0.01,
  0.1) are exactly representable, so no rounding behaviour is lost.
* Python strings are Lean `String`s (or `List Char` where character-level
  processing is involved); `str.replace`, `str.strip`, `str.split`,
  `''.join` and `str.format` are given executable character-level models.
* `pretty_num` (from `mosfit/utils.py`, a pure number-to-string formatter
  not part of the sources) is abstracted as an explicit function parameter
  `pn` wherever a rendered segment embeds a formatted number.
* Catalog strings (`strings.json`, not part of the sources) are kept as
  their lookup keys where their content does not matter.
-/

namespace MosfitPrinter

/-- A Python float as far as the embedded code needs it: an exact finite
value, positive infinity (`np.inf`), negative infinity, or NaN. -/
inductive PyExt where
  | fin (q : ℚ)
  | pinf
  | ninf
  | nan
deriving DecidableEq, Repr

/-- IEEE semantics of `v > c` for a float `v` against a finite literal `c`:
`+inf > c` is true, `-inf > c` is false, and any comparison with NaN is
false. -/
def PyExt.gtQ : PyExt → ℚ → Bool
  | .fin q, c => decide (c < q)
  | .pinf, _ => true
  | .ninf, _ => false
  | .nan, _ => false

/-- IEEE semantics of `v < c` for a float `v` against a finite literal `c`. -/
def PyExt.ltQ : PyExt → ℚ → Bool
  | .fin q, c => decide (q < c)
  | .pinf, _ => false
  | .ninf, _ => true
  | .nan, _ => false

/-- `np.isnan`. -/
def PyExt.isNan : PyExt → Bool
  | .nan => true
  | _ => false

/-- Python's `int()` on a float value: truncation toward zero. -/
def pyInt (q : ℚ) : ℤ :=
  if 0 ≤ q then ⌊q⌋ else ⌈q⌉

/-! ## The elapsed-time estimate segment (`Printer.status`, lines 307-315)

```python
if fitter._emcee_est_t < 0.0:
    outarr.append(self._strings['run_until_converged'])
elif fitter._emcee_est_t + fitter._bh_est_t > 0.0:
    if fitter._bh_est_t > 0.0 or not fitter._fracking:
        tott = fitter._emcee_est_t + fitter._bh_est_t
    else:
        tott = 2.0 * fitter._emcee_est_t
    timestring = self.get_timestring(tott)
    outarr.append(timestring)
```
-/

/-- What the elapsed-time block of `status` appends to `outarr`: nothing,
the fixed `run_until_converged` catalog message, or a `get_timestring`
rendering of the total estimate `tott` (carried here as the exact value
handed to `get_timestring`). -/
inductive TimeSeg where
  | none
  | runUntilConverged
  | timestring (tott : ℚ)
deriving DecidableEq, Repr

/-- The elapsed-time block of `Printer.status`: `emcee` is
`fitter._emcee_est_t` (the primary, emcee-phase elapsed-time estimate),
`bh` is `fitter._bh_est_t` (the secondary, fracking-phase estimate), and
`fracking` is `fitter._fracking`. -/
def statusTimeSeg (emcee bh : ℚ) (fracking : Bool) : TimeSeg :=
  if emcee < 0 then .runUntilConverged
  else if 0 < emcee + bh then
    .timestring (if 0 < bh ∨ fracking = false then emcee + bh else 2 * emcee)
  else .none

/-! ## The autocorrelation segment (`Printer.status`, lines 316-334)

```python
if acor is not None:
    acorcstr = pretty_num(acor[1], sig=3)
    if acor[0] <= 0.0:
        acorstring = ('!rChain too short for `acor` ({})!e'.format(acorcstr))
    else:
        acortstr = pretty_num(acor[0], sig=3)
        acorbstr = str(int(acor[2]))
        if acor[1] < 2.0:
            col = '!r'
        elif acor[1] < 5.0:
            col = '!y'
        else:
            col = '!g'
        acorstring = col
        acorstring = acorstring + 'Acor Tau (i > {}): {} ({}x)'.format(
            acorbstr, acortstr, acorcstr)
        acorstring = acorstring + ('!e' if col else '')
    outarr.append(acorstring)
```

`acor` is the triple `(tau, ratio, burn-in index)` (`acor[0]`, `acor[1]`,
`acor[2]`). -/

/-- The color marker chosen for the autocorrelation segment from the ratio
`acor[1]`. -/
def acorColor (ratio : ℚ) : String :=
  if ratio < 2 then "!r" else if ratio < 5 then "!y" else "!g"

/-- The autocorrelation segment of `Printer.status`. `pn` stands for
`pretty_num` (sig=3). -/
def acorSegment (pn : ℚ → String) (tau ratio idx : ℚ) : String :=
  let acorcstr := pn ratio
  if tau ≤ 0 then
    "!rChain too short for `acor` (" ++ acorcstr ++ ")!e"
  else
    acorColor ratio ++ "Acor Tau (i > " ++ toString (pyInt idx) ++ "): "
      ++ pn tau ++ " (" ++ acorcstr ++ "x)" ++ "!e"

/-! ## The PSRF segment (`Printer.status`, lines 335-348)

```python
if psrf is not None and psrf[0] != np.inf:
    psrfstr = pretty_num(psrf[0], sig=4)
    psrfbstr = str(int(psrf[1]))
    if psrf[0] > 2.0:
        col = '!r'
    elif psrf[0] > 1.2:
        col = '!y'
    else:
        col = '!g'
    psrfstring = col
    psrfstring = psrfstring + 'PSRF (i > {}): {}'.format(psrfbstr, psrfstr)
    psrfstring = psrfstring + ('!e' if col else '')
    outarr.append(psrfstring)
```
-/

/-- The color marker chosen for the PSRF segment from the PSRF value. -/
def psrfColor (v : PyExt) : String :=
  if v.gtQ 2 then "!r" else if v.gtQ (6 / 5) then "!y" else "!g"

/-- The PSRF block of `Printer.status` for a present `psrf = (v, idx)`:
`none` when the block appends nothing (the `psrf[0] != np.inf` guard
fails), otherwise the appended string. `pnx` stands for `pretty_num`
(sig=4) applied to the possibly non-finite value. -/
def psrfSegment (pnx : PyExt → String) (v : PyExt) (idx : ℚ) : Option String :=
  if v = .pinf then none
  else some (psrfColor v ++ "PSRF (i > " ++ toString (pyInt idx) ++ "): "
    ++ pnx v ++ "!e")

/-! ## `Printer.prompt` (lines 199-246) -/

/-- The value `prompt` returns to its caller: a Python bool (`bool` kind,
and the failure value `False` of the `select` kind) or a string (`string`
kind, and a chosen option of the `select` kind). -/
inductive PromptResult where
  | pyBool (b : Bool)
  | pyStr (s : String)
deriving DecidableEq, Repr

/-- Model of `is_integer(user_input) and int(user_input)` from
`mosfit/utils.py` (not among the sources): whether the string parses as an
integer, via Lean's integer parser. -/
def strIsInt (s : String) : Bool := s.toInt?.isSome

/-- The parsed integer of a user input (0 if unparsable; only consulted
when `strIsInt` holds). -/
def strToInt (s : String) : ℤ := (s.toInt?).getD 0

/-- The `choices` text built by `prompt` for the `select` kind:

```python
selpad = ''.join([' ' for x in str(len(options))])
choices = '\n' + '\n'.join([
    ' ' + str(i + 1) + '. ' + selpad[len(str(i + 1)) - 1:] +
    options[i] for i in range(len(options))
] + [
    '[n].' + selpad + none_string + '\n' +
    'Enter selection (' + ('1-' if len(options) > 1 else '') + str(
        len(options)) + '/[n]):'
])
```
-/
def selectChoices (options : List String) (none_string : String) : String :=
  let selpad := String.mk (List.replicate (toString options.length).length ' ')
  let numbered := (List.range options.length).map (fun i =>
    " " ++ toString (i + 1) ++ ". "
      ++ String.mk (selpad.data.drop ((toString (i + 1)).length - 1))
      ++ options.getD i "")
  let last := "[n]." ++ selpad ++ none_string ++ "\n"
    ++ "Enter selection (" ++ (if options.length > 1 then "1-" else "")
    ++ toString options.length ++ "/[n]):"
  "\n" ++ String.intercalate "\n" (numbered ++ [last])

/-- The `kind` dispatch at the top of `prompt` that builds the `choices`
text; an unknown kind raises `ValueError('Unknown prompt kind.')` here,
before any input is read. -/
def promptChoices (kind : String) (options : List String)
    (none_string : String) : Except String String :=
  if kind = "bool" then .ok " (y/[n])"
  else if kind = "select" then .ok (selectChoices options none_string)
  else if kind = "string" then .ok ""
  else .error "Unknown prompt kind."

/-- `Printer.prompt`, with the interactive read replaced by the
`user_input` parameter: the kind dispatch (which may raise), then the
dispatch on the user's reply:

```python
if kind == 'bool':
    return user_input in ["Y", "y", "Yes", "yes"]
elif kind == 'select':
    if (is_integer(user_input) and
            int(user_input) in list(range(1, len(options) + 1))):
        return options[int(user_input) - 1]
    return False
elif kind == 'string':
    return user_input
```
-/
def prompt (kind : String) (options : List String)
    (none_string user_input : String) : Except String PromptResult :=
  match promptChoices kind options none_string with
  | .error e => .error e
  | .ok _choices =>
    if kind = "bool" then
      .ok (.pyBool (["Y", "y", "Yes", "yes"].contains user_input))
    else if kind = "select" then
      if strIsInt user_input ∧ 1 ≤ strToInt user_input ∧
          strToInt user_input ≤ (options.length : ℤ) then
        .ok (.pyStr (options.getD (strToInt user_input - 1).toNat ""))
      else .ok (.pyBool false)
    else
      .ok (.pyStr user_input)

end MosfitPrinter

namespace MosfitPrinter

/-! ## The control flow of `Printer.status` (lines 248-352)

`status` begins with

```python
if self._quiet:
    return
```

then builds `outarr` (description, scores, acceptance fractions, progress,
elapsed time, autocorrelation, PSRF — none of which can raise), and only
then checks

```python
if not isinstance(messages, list):
    raise ValueError('`messages` must be list!')
outarr.extend(messages)
```

before the heatmap/packing/printing stage. The embedding below covers this
slice: the quiet gate, the elapsed-time / acor / PSRF segments (via the
block functions above; the purely formatting-driven desc/scores/accepts/
progress segments are omitted from the composed list as they cannot raise
and no claim constrains them), and the `messages` type check. The composed
value is the segment list handed onward; leadership (`is_master`) is only
consulted later, by the printing helpers, and is carried here untouched to
show the error does not depend on it. -/

/-- The `messages` argument of `status`: either an actual Python list of
strings or a value of any other type (`isinstance(messages, list)` false). -/
inductive MessagesArg where
  | list (ms : List String)
  | nonList
deriving DecidableEq, Repr

/-- The arguments and printer/fitter state consulted by the embedded slice
of `Printer.status`. -/
structure StatusInput where
  quiet : Bool
  is_master : Bool
  emcee_est_t : ℚ
  bh_est_t : ℚ
  fracking : Bool
  acor : Option (ℚ × ℚ × ℚ)
  psrf : Option (PyExt × ℚ)
  messages : MessagesArg

/-- The embedded slice of `Printer.status`: quiet early-return, segment
assembly, and the `messages` type check that raises
`ValueError('`messages` must be list!')`. `pn` and `pnx` stand for
`pretty_num`. -/
def status (pn : ℚ → String) (pnx : PyExt → String) (inp : StatusInput) :
    Except String (List String) :=
  if inp.quiet then .ok []
  else
    let timeArr : List String :=
      match statusTimeSeg inp.emcee_est_t inp.bh_est_t inp.fracking with
      | .none => []
      | .runUntilConverged => ["run_until_converged"]
      | .timestring tott => ["estimated_time: [ " ++ pn tott ++ " ]"]
    let acorArr : List String :=
      match inp.acor with
      | none => []
      | some (tau, ratio, idx) => [acorSegment pn tau ratio idx]
    let psrfArr : List String :=
      match inp.psrf with
      | none => []
      | some (v, idx) =>
        match psrfSegment pnx v idx with
        | none => []
        | some s => [s]
    let outarr := timeArr ++ acorArr ++ psrfArr
    match inp.messages with
    | .nonList => .error "`messages` must be list!"
    | .list ms => .ok (outarr ++ ms)

/-! ## `Printer.ascii_fill` (lines 463-472)

```python
def ascii_fill(self, value, pers):
    if np.isnan(value) or value < pers[0]:
        return ' '
    if np.isnan(value) or value < pers[1]:
        return '.'
    elif value < pers[2]:
        return '*'
    else:
        return '#'
```
-/

/-- `Printer.ascii_fill`: the heatmap cell-to-glyph map. `pers` is the
threshold triple `(p0, p1, p2)` (the 20th/50th/80th percentiles). -/
def ascii_fill (value : PyExt) (p0 p1 p2 : ℚ) : Char :=
  if value.isNan || value.ltQ p0 then ' '
  else if value.isNan || value.ltQ p1 then '.'
  else if value.ltQ p2 then '*'
  else '#'

/-- The intensity order of the glyph alphabet:
BLANK `' '` < LOW `'.'` < MID `'*'` < HIGH `'#'`. -/
def glyphRank (c : Char) : ℕ :=
  if c = ' ' then 0 else if c = '.' then 1 else if c = '*' then 2 else 3

/-! ## The line packer of `Printer.status` (lines 372-384) and visible width

```python
line = ''
lines = ''
li = 0
for i, item in enumerate(outarr):
    oldline = line
    line = line + (' | ' if li > 0 else '') + item
    li = li + 1
    if len(line) > self._wrap_length - kmat_extra:
        li = 1
        lines = lines + '\n' + oldline
        line = item
lines = lines + '\n' + line
```

The produced `lines` string always starts with `'\n'`, so after
`_lines` splits it the first line is empty; `pack` below returns the
resulting line list (with that leading empty line), with
`maxW = self._wrap_length - kmat_extra`. -/

/-- The marker second-characters of `Printer.ansi.codes` (`!b`, `!c`,
`!e`, `!g`, `!m`, `!o`, `!r`, `!u`, `!y`). -/
def markerChars : List Char := ['b', 'c', 'e', 'g', 'm', 'o', 'r', 'u', 'y']

/-- Remove every color-marker occurrence (`'!'` followed by a marker
character) from a character list, scanning left to right without overlap —
the `str.replace`-style removal underlying the spec's `visibleWidth`. -/
def stripMarkersAux : List Char → List Char
  | [] => []
  | [c] => [c]
  | c :: d :: rest =>
    if c = '!' ∧ d ∈ markerChars then stripMarkersAux rest
    else c :: stripMarkersAux (d :: rest)

/-- The spec's `visibleWidth`: the column width of a string after removing
all zero-width color markers. -/
def visibleWidth (s : String) : ℕ := (stripMarkersAux s.data).length

/-- The packing loop of `Printer.status`: `line` is the line under
construction (the loop's `oldline` is its value before appending), `li`
the number of items on it. On overflow the previous line value is closed
and the current item starts a new line. The final `line` is always
emitted at the end. -/
def packLoop (maxW : ℤ) : List String → String → ℕ → List String
  | [], line, _ => [line]
  | item :: rest, line, li =>
    if ((line ++ (if li > 0 then " | " else "") ++ item).length : ℤ) > maxW then
      line :: packLoop maxW rest item 1
    else
      packLoop maxW rest (line ++ (if li > 0 then " | " else "") ++ item) (li + 1)

/-- The line-packing step of `Printer.status`: pack the segments of
`outarr` into lines of raw length at most `maxW`, never splitting a
segment. The leading `""` is the empty first line produced by the
leading `'\n'` of the accumulated `lines` string. -/
def pack (items : List String) (maxW : ℤ) : List String :=
  "" :: packLoop maxW items "" 0

/-! ## `Printer.message` (lines 185-197)

```python
if name in self._strings:
    text = self._strings[name]
else:
    text = '< Message not found [' + ''.join(
        ['{} ' for x in range(len(reps))]).strip() + '] >'
text = text.format(*reps)
```
-/

/-- ASCII whitespace as stripped by Python's `str.strip()`. -/
def isPySpace (c : Char) : Bool :=
  (c == ' ') || (c == '\t') || (c == '\n') || (c == '\x0b') ||
    (c == '\x0c') || (c == '\r')

/-- Python `str.strip()` at character level: drop leading and trailing
whitespace. -/
def pyStripChars (l : List Char) : List Char :=
  ((l.dropWhile isPySpace).reverse.dropWhile isPySpace).reverse

/-- Python `str.strip()`. -/
def pyStrip (s : String) : String := String.mk (pyStripChars s.data)

/-- Python `''.join`. -/
def pyJoin (l : List String) : String := String.mk ((l.map String.data).flatten)

/-- The placeholder text `message` builds for a name absent from the
string catalog, with `n = len(reps)` expected positional arguments:
`'< Message not found [' + ''.join(['\x7b\x7d ' for x in range(len(reps))]).strip() + '] >'`. -/
def messageMissingText (n : ℕ) : String :=
  "< Message not found [" ++ pyStrip (pyJoin (List.replicate n "\x7b\x7d "))
    ++ "] >"

/-- The character list of `n` repetitions of the block `"\x7b\x7d "`
(proof-side normal form of the joined, unstripped template body). -/
def slotsChars (n : ℕ) : List Char :=
  (List.replicate n ['\x7b', '\x7d', ' ']).flatten

/-- The number of positional `\x7b\x7d` slots in a template, scanning left
to right without overlap. -/
def slotCount : List Char → ℕ
  | [] => 0
  | [_] => 0
  | a :: b :: rest =>
    if a = '\x7b' ∧ b = '\x7d' then slotCount rest + 1
    else slotCount (b :: rest)

/-- Model of Python `str.format(*args)` positional substitution: each
`\x7b\x7d` slot consumes the next argument in order; a slot with no
remaining argument, or a stray unmatched brace, is a formatting error
(`none`); surplus arguments are ignored. (Escaped braces do not occur in
the templates considered here.) -/
def pyFormatAux : List Char → List String → Option (List Char)
  | [], _ => some []
  | [c], _ => if c = '\x7b' ∨ c = '\x7d' then none else some [c]
  | a :: b :: rest, args =>
    if a = '\x7b' then
      if b = '\x7d' then
        match args with
        | [] => none
        | r :: args2 => (pyFormatAux rest args2).map (fun t => r.data ++ t)
      else none
    else if a = '\x7d' then none
    else (pyFormatAux (b :: rest) args).map (fun t => a :: t)

/-- Python `str.format(*args)` (positional slots only). -/
def pyFormat (s : String) (args : List String) : Option String :=
  (pyFormatAux s.data args).map String.mk

/-! ## `Printer.colorify` and the ANSI code table (lines 35-57, 107-112)

```python
codes = {
    '!b': BLUE, '!c': CYAN, '!e': END, '!g': GREEN, '!m': MAGENTA,
    '!o': ORANGE, '!r': RED, '!u': UNDERLINE, '!y': YELLOW
}

def colorify(self, text):
    output = text
    for code in self.ansi.codes:
        output = output.replace(code, self.ansi.codes[code])
    return output
```
-/

/-- Python `str.replace(old, new)` specialized to a two-character pattern
`[p, q]`: scan left to right, replacing non-overlapping occurrences and
continuing after each replacement. -/
def replace2 (p q : Char) (rep : List Char) : List Char → List Char
  | [] => []
  | [c] => [c]
  | c :: d :: rest =>
    if c = p ∧ d = q then rep ++ replace2 p q rep rest
    else c :: replace2 p q rep (d :: rest)

/-- The `Printer.ansi.codes` table in its Python insertion order, as
(marker second-character, escape sequence) pairs; every marker is `'!'`
followed by the character, and `'\033'` is `'\x1b'`. -/
def ansiCodes : List (Char × List Char) :=
  [('b', "\x1b[0;94m".data),
   ('c', "\x1b[0;96m".data),
   ('e', "\x1b[0m".data),
   ('g', "\x1b[0;92m".data),
   ('m', "\x1b[1;35m".data),
   ('o', "\x1b[38;5;214m".data),
   ('r', "\x1b[0;91m".data),
   ('u', "\x1b[4m".data),
   ('y', "\x1b[0;93m".data)]

/-- `Printer.colorify` at character level: successively replace each
marker with its escape sequence, in table order. -/
def colorifyChars (l : List Char) : List Char :=
  ansiCodes.foldl (fun acc pr => replace2 '!' pr.1 pr.2 acc) l

/-- `Printer.colorify`. -/
def colorify (s : String) : String := String.mk (colorifyChars s.data)

/-- Whether the two-character pattern `[p, q]` occurs as a contiguous
substring. -/
def hasPat (p q : Char) : List Char → Bool
  | [] => false
  | [_] => false
  | c :: d :: rest => ((c == p) && (d == q)) || hasPat p q (d :: rest)

/-! ## `Printer.tree` (lines 429-461)

```python
def tree(self, my_tree):
    for root in my_tree:
        tree_str = json.dumps({root: my_tree[root]},
                              indent='─ ',
                              separators=('', ''))
        tree_str = ''.join(
            c for c in tree_str if c not in ['{', '}', '"'])
        tree_str = '\n'.join([
            x.rstrip() for x in tree_str.split('\n') if
            x.strip('─ ') != ''])
        tree_str = '\n'.join(
            [x[::-1].replace('─ ─', '├', 1)[::-1].replace('─', '│') if
             x.startswith('─ ─') else x.replace('─ ', '') + ':'
             for x in tree_str.split('\n')])
        lines = ['  ' + x for x in tree_str.split('\n')]
        ll = len(lines)
        for li, line in enumerate(lines):
            if (li < ll - 1 and
                    lines[li + 1].count('│') < line.count('│')):
                lines[li] = line.replace('├', '└')
        for li, line in enumerate(reversed(lines)):
            if li == 0:
                lines[ll - li - 1] = line.replace(
                    '│', ' ').replace('├', '└')
                continue
            lines[ll - li - 1] = ''.join([
                x if ci > len(lines[ll - li]) - 1 or x not in ['│', '├'] or
                lines[ll - li][ci] != ' ' else x.replace(
                    '│', ' ').replace(
                        '├', '└') for ci, x in enumerate(line)])
        tree_str = '\n'.join(lines)
        self.prt(tree_str)
```
-/

/-- A Python nested dict mapping labels to subtrees (a TreeNode level);
entry order is dict insertion order. -/
inductive PyTree where
  | node (children : List (String × PyTree))

/-- `k` repetitions of the indent unit `"─ "`. -/
def indentChars (k : ℕ) : List Char :=
  (List.replicate k ['─', ' ']).flatten

mutual
/-- `json.dumps(v, indent='─ ', separators=('', ''))` at nesting depth
`d`: an empty dict prints inline as braces; a non-empty dict opens a
brace, emits each item on its own indented line (both separators are
empty), and closes the brace on a line at the parent depth. -/
def dumpsVal (d : ℕ) : PyTree → List Char
  | .node [] => ['\x7b', '\x7d']
  | .node (kv :: kvs) =>
    '\x7b' :: (dumpsItems (d + 1) (kv :: kvs) ++
      ('\n' :: (indentChars d ++ ['\x7d'])))

/-- The item lines of a non-empty dict: each item is a newline, the
indent, the quoted key (empty key separator), then its dumped value. -/
def dumpsItems (d : ℕ) : List (String × PyTree) → List Char
  | [] => []
  | (k, v) :: rest =>
    ('\n' :: (indentChars d ++ ('"' :: (k.data ++ ('"' :: dumpsVal d v)))))
      ++ dumpsItems d rest
end

/-- Drop the structural punctuation braces and quotes. -/
def stripPunct (l : List Char) : List Char :=
  l.filter (fun c => !((c == '\x7b') || (c == '\x7d') || (c == '"')))

/-- Python `str.split('\n')`. -/
def splitNL : List Char → List (List Char)
  | [] => [[]]
  | c :: rest =>
    if c = '\n' then [] :: splitNL rest
    else
      match splitNL rest with
      | [] => [[c]]
      | h :: t => (c :: h) :: t

/-- Python `str.strip(chars)`: drop characters of the set from both
ends. -/
def stripSet (set : List Char) (l : List Char) : List Char :=
  ((l.dropWhile (fun c => set.contains c)).reverse.dropWhile
    (fun c => set.contains c)).reverse

/-- Python `str.rstrip()`. -/
def rstripWS (l : List Char) : List Char :=
  (l.reverse.dropWhile isPySpace).reverse

/-- Python `str.replace(pat, rep, 1)` for a three-character pattern:
replace only the first occurrence. -/
def replaceFirst3 (a b c : Char) (rep : List Char) : List Char → List Char
  | x :: y :: z :: rest =>
    if x = a ∧ y = b ∧ z = c then rep ++ rest
    else x :: replaceFirst3 a b c rep (y :: z :: rest)
  | l => l

/-- Python `str.replace(a, b)` for single characters. -/
def replaceChar (a b : Char) (l : List Char) : List Char :=
  l.map (fun c => if c = a then b else c)

/-- The per-line connector transform (third stage of `tree`): a line
starting with `'─ ─'` has its *last* `'─ ─'` (first of the reversed line)
turned into `'├'` and every remaining `'─'` into `'│'`; any other line
drops its `'─ '` prefix and gains a trailing `':'`. -/
def connectLine (x : List Char) : List Char :=
  if x.take 3 = ['─', ' ', '─'] then
    replaceChar '─' '│'
      ((replaceFirst3 '─' ' ' '─' ['├'] x.reverse).reverse)
  else
    replace2 '─' ' ' [] x ++ [':']

/-- Forward pass of `tree`: a line whose immediate successor has strictly
fewer `'│'` glyphs gets its `'├'` glyphs replaced by `'└'`; the last line
is untouched. -/
def treePass1 : List (List Char) → List (List Char)
  | [] => []
  | [l] => [l]
  | l :: l2 :: rest =>
    (if l2.count '│' < l.count '│' then replaceChar '├' '└' l else l)
      :: treePass1 (l2 :: rest)

/-- The column-wise corner fix of the bottom-up pass: a `'│'` or `'├'` at
a column where the (already processed) successor line holds a blank
becomes `' '` or `'└'` respectively; every other character is kept. -/
def pass2Fix (next line : List Char) : List Char :=
  line.enum.map (fun p =>
    if p.1 ≥ next.length ∨ (¬p.2 = '│' ∧ ¬p.2 = '├') ∨
        ¬next.getD p.1 ' ' = ' ' then p.2
    else if p.2 = '│' then ' ' else if p.2 = '├' then '└' else p.2)

/-- The unconditional fix applied to the very last line: every `'│'`
becomes `' '` and every `'├'` becomes `'└'`. -/
def lastLineFix (line : List Char) : List Char :=
  replaceChar '├' '└' (replaceChar '│' ' ' line)

/-- Bottom-up pass of `tree`: the last line is corner-fixed outright;
every other line is fixed column-by-column against its already-processed
successor. -/
def treePass2 : List (List Char) → List (List Char)
  | [] => []
  | [l] => [lastLineFix l]
  | l :: l2 :: rest =>
    match treePass2 (l2 :: rest) with
    | [] => []
    | r1 :: rt => pass2Fix r1 l :: (r1 :: rt)

/-- The full `tree` pipeline for one root of the forest: serialize, strip
punctuation, drop blank lines and right-strip, apply the connector
transform, indent by the two-space margin, then the two correction
passes. -/
def treeRoot (root : String) (t : PyTree) : List (List Char) :=
  treePass2 (treePass1
    (((((splitNL (stripPunct (dumpsVal 0 (.node [(root, t)])))).filter
      (fun x => !(stripSet ['─', ' '] x).isEmpty)).map
        rstripWS).map connectLine).map (fun x => ' ' :: ' ' :: x)))

/-- `Printer.tree`: render every root of the forest, in order. -/
def tree (forest : List (String × PyTree)) : List (List (List Char)) :=
  forest.map (fun rv => treeRoot rv.1 rv.2)

/-! ## Claim C1: the total elapsed-time estimate -/

/-- **C1, counterexample.** The claim says the rendered total equals twice
the primary contribution exactly when fracking is *disabled* and the
secondary elapsed time is zero. With `emcee_est_t = 1`, `bh_est_t = 0`,
`fracking = false` (disabled) the primary estimate is non-negative and the
primary-plus-secondary sum is positive, so a total is rendered — but the
code takes the `bh > 0 or not fracking` branch and renders the plain sum
`1`, not the doubled `2` the claim requires. -/
theorem C1_cex :
    statusTimeSeg 1 0 false = TimeSeg.timestring 1 ∧
    statusTimeSeg 1 0 false ≠ TimeSeg.timestring (2 * 1) := by
  have h : statusTimeSeg 1 0 false = TimeSeg.timestring 1 := by
    unfold statusTimeSeg; norm_num
  refine ⟨h, ?_⟩
  rw [h]
  intro hc
  exact absurd (TimeSeg.timestring.inj hc) (by norm_num)

/-- **C1, amended.** Whenever a total elapsed-time estimate is rendered
(primary estimate non-negative and primary plus secondary positive), the
rendered total equals the sum of the primary and secondary contributions,
except that it equals twice the primary contribution exactly when fracking
is *enabled* and the secondary elapsed time is not positive. -/
theorem C1_amended (emcee bh : ℚ) (fracking : Bool)
    (h0 : 0 ≤ emcee) (h1 : 0 < emcee + bh) :
    statusTimeSeg emcee bh fracking =
      TimeSeg.timestring
        (if fracking = true ∧ bh ≤ 0 then 2 * emcee else emcee + bh) := by
  unfold statusTimeSeg
  rw [if_neg (by linarith), if_pos h1]
  congr 1
  by_cases hf : fracking
  · by_cases hb : 0 < bh
    · rw [if_pos (Or.inl hb), if_neg (by simp [hf]; linarith)]
    · rw [if_neg (by simp [hf]; linarith), if_pos (by constructor <;> [exact hf; linarith])]
  · rw [if_pos (Or.inr (by simpa using hf)), if_neg (by simp [hf])]

/-- **C1, witness.** A concrete instantiation of `C1_amended`: with
`emcee = 3`, `bh = 0`, fracking enabled, the rendered total is the doubled
primary contribution `6`. -/
theorem C1_witness :
    statusTimeSeg 3 0 true = TimeSeg.timestring 6 := by
  have h := C1_amended 3 0 true (by norm_num) (by norm_num)
  norm_num at h
  convert h using 2

end MosfitPrinter

namespace MosfitPrinter

/-! ## Claim C4: the `bool` prompt kind -/

/-- **C4, counterexample.** The claim says `prompt` with kind `bool`
returns true for every input equal to `y`/`yes` case-insensitively, in
particular `YES`. The code tests exact membership in
`["Y", "y", "Yes", "yes"]`, so `YES` (whose lowercase form is `yes`)
returns false. -/
theorem C4_cex :
    prompt "bool" [] "None of the above." "YES" =
      Except.ok (PromptResult.pyBool false) ∧
    "YES".data.map Char.toLower = "yes".data := by
  exact ⟨rfl, by decide⟩

/-- **C4, amended.** `prompt` with kind `bool` returns true for exactly
those user inputs that are one of the four literal strings `Y`, `y`,
`Yes`, `yes` (case-sensitive), and false for every other input. -/
theorem C4_amended (opts : List String) (ns ui : String) :
    (prompt "bool" opts ns ui = Except.ok (PromptResult.pyBool true) ↔
      (ui = "Y" ∨ ui = "y" ∨ ui = "Yes" ∨ ui = "yes")) ∧
    (prompt "bool" opts ns ui = Except.ok (PromptResult.pyBool false) ↔
      ¬(ui = "Y" ∨ ui = "y" ∨ ui = "Yes" ∨ ui = "yes")) := by
  have hb : prompt "bool" opts ns ui =
      Except.ok (PromptResult.pyBool (["Y", "y", "Yes", "yes"].contains ui)) :=
    rfl
  rw [hb]
  simp only [Except.ok.injEq, PromptResult.pyBool.injEq]
  constructor
  · simp [List.contains, List.elem_eq_mem, decide_eq_true_eq]
  · simp [List.contains, List.elem_eq_mem, decide_eq_false_iff_not]

/-! ## Claim C2: the autocorrelation segment -/

/-- **C2, counterexample.** The claim says that whenever the burn-in
sample index (`acor[2]`) is ≤ 0 the segment is the fixed red
`Chain too short` warning carrying the sample index. At
`(tau, ratio, index) = (1, 3, 0)` the index is 0 ≤ 0, yet the code — whose
warning guard tests `acor[0] <= 0.0`, i.e. tau — produces the yellow
classified segment, not the warning (with any formatter; here
`pretty_num` is instantiated by numerator printing, exact on integers). -/
theorem C2_cex :
    acorSegment (fun q => toString q.num) 1 3 0 =
      "!yAcor Tau (i > 0): 1 (3x)!e" ∧
    acorSegment (fun q => toString q.num) 1 3 0 ≠
      "!rChain too short for `acor` (0)!e" := by
  constructor
  · rfl
  · intro h
    exact absurd ((rfl :
      acorSegment (fun q => toString q.num) 1 3 0 =
        "!yAcor Tau (i > 0): 1 (3x)!e") ▸ h) (by decide)

/-- **C2, amended.** For every autocorrelation triple
`(tau, ratio, burn-in index)`: if `tau ≤ 0` the produced segment is the
fixed red `Chain too short` warning carrying the *ratio*; otherwise the
segment's color is red when `ratio < 2.0`, yellow when
`2.0 ≤ ratio < 5.0`, green when `ratio ≥ 5.0`, and it renders tau followed
by the ratio in parentheses, with the burn-in index in the leading
`(i > index)` annotation. -/
theorem C2_amended (pn : ℚ → String) (tau ratio idx : ℚ) :
    (tau ≤ 0 → acorSegment pn tau ratio idx =
      "!rChain too short for `acor` (" ++ pn ratio ++ ")!e") ∧
    (0 < tau → acorSegment pn tau ratio idx =
      acorColor ratio ++ "Acor Tau (i > " ++ toString (pyInt idx) ++ "): "
        ++ pn tau ++ " (" ++ pn ratio ++ "x)" ++ "!e") ∧
    (acorColor ratio = "!r" ↔ ratio < 2) ∧
    (acorColor ratio = "!y" ↔ 2 ≤ ratio ∧ ratio < 5) ∧
    (acorColor ratio = "!g" ↔ 5 ≤ ratio) := by
  refine ⟨?_, ?_, ?_, ?_, ?_⟩
  · intro h
    unfold acorSegment
    rw [if_pos h]
  · intro h
    unfold acorSegment
    rw [if_neg (not_le.mpr h)]
  · unfold acorColor
    by_cases h2 : ratio < 2
    · simp [h2]
    · rw [if_neg h2]
      by_cases h5 : ratio < 5 <;> simp [h5, h2]
  · unfold acorColor
    by_cases h2 : ratio < 2
    · rw [if_pos h2]
      constructor
      · intro h; exact absurd h (by decide)
      · intro h; linarith [h.1]
    · rw [if_neg h2]
      by_cases h5 : ratio < 5
      · simp [h5, not_lt.mp h2]
      · rw [if_neg h5]
        constructor
        · intro h; exact absurd h (by decide)
        · intro h; exact absurd h.2 h5
  · unfold acorColor
    by_cases h2 : ratio < 2
    · rw [if_pos h2]
      constructor
      · intro h; exact absurd h (by decide)
      · intro h; linarith
    · rw [if_neg h2]
      by_cases h5 : ratio < 5
      · rw [if_pos h5]
        constructor
        · intro h; exact absurd h (by decide)
        · intro h; linarith
      · simp [h5, not_lt.mp h5]

/-- **C2, witness.** A concrete instantiation of `C2_amended`: at
`(tau, ratio, index) = (1, 3, 7)` the segment is the yellow-classified
rendering. -/
theorem C2_witness :
    acorSegment (fun q => toString q.num) 1 3 7 =
      acorColor 3 ++ "Acor Tau (i > " ++ toString (pyInt 7) ++ "): "
        ++ toString (1 : ℚ).num ++ " (" ++ toString (3 : ℚ).num ++ "x)"
        ++ "!e" ∧
    (acorColor 3 = "!y" ↔ 2 ≤ (3 : ℚ) ∧ (3 : ℚ) < 5) := by
  exact ⟨(C2_amended (fun q => toString q.num) 1 3 7).2.1 (by norm_num),
    (C2_amended (fun q => toString q.num) 1 3 7).2.2.2.1⟩

/-! ## Claim C5: the PSRF segment -/

/-- **C5, counterexample.** The claim says that when the PSRF value is
infinite no PSRF segment is produced at all. The code's guard
`psrf[0] != np.inf` only filters *positive* infinity: at a PSRF value of
negative infinity a segment is produced (and classified green, since
`-inf > 2.0` and `-inf > 1.2` are both false). -/
theorem C5_cex :
    (psrfSegment (fun _ => "") PyExt.ninf 0).isSome = true ∧
    psrfColor PyExt.ninf = "!g" := by
  exact ⟨rfl, rfl⟩

/-- Evaluation of `psrfColor` on a finite value as a plain conditional. -/
theorem psrfColor_fin (q : ℚ) :
    psrfColor (PyExt.fin q) =
      if 2 < q then "!r" else if 6 / 5 < q then "!y" else "!g" := by
  unfold psrfColor PyExt.gtQ
  by_cases h2 : 2 < q <;> by_cases h1 : 6 / 5 < q <;> simp [h2, h1]

/-- **C5, amended.** For every finite PSRF value `v`, the PSRF segment is
green when `v ≤ 1.2`, yellow when `1.2 < v ≤ 2.0`, and red when
`v > 2.0`; when the value is *positive* infinity, no segment is produced
at all; a value of negative infinity does produce a segment, classified
green. -/
theorem C5_amended (pnx : PyExt → String) (q : ℚ) (idx : ℚ) :
    psrfSegment pnx PyExt.pinf idx = none ∧
    (psrfSegment pnx (PyExt.fin q) idx).isSome = true ∧
    (psrfColor (PyExt.fin q) = "!g" ↔ q ≤ 6 / 5) ∧
    (psrfColor (PyExt.fin q) = "!y" ↔ 6 / 5 < q ∧ q ≤ 2) ∧
    (psrfColor (PyExt.fin q) = "!r" ↔ 2 < q) ∧
    (psrfSegment pnx PyExt.ninf idx).isSome = true ∧
    psrfColor PyExt.ninf = "!g" := by
  refine ⟨rfl, by simp [psrfSegment], ?_, ?_, ?_, rfl, rfl⟩
  · rw [psrfColor_fin]
    split_ifs with h2 h1
    · exact ⟨fun h => absurd h (by decide), fun h => absurd h2 (by linarith)⟩
    · exact ⟨fun h => absurd h (by decide), fun h => absurd h1 (by linarith)⟩
    · exact ⟨fun _ => le_of_not_lt h1, fun _ => rfl⟩
  · rw [psrfColor_fin]
    split_ifs with h2 h1
    · exact ⟨fun h => absurd h (by decide), fun h => absurd h2 (by linarith [h.2])⟩
    · exact ⟨fun _ => ⟨h1, le_of_not_lt h2⟩, fun _ => rfl⟩
    · exact ⟨fun h => absurd h (by decide), fun h => absurd h.1 h1⟩
  · rw [psrfColor_fin]
    split_ifs with h2 h1
    · exact ⟨fun _ => h2, fun _ => rfl⟩
    · exact ⟨fun h => absurd h (by decide), fun h => absurd h h2⟩
    · exact ⟨fun h => absurd h (by decide), fun h => absurd h h2⟩

end MosfitPrinter

namespace MosfitPrinter

/-! ## Claim C7: configuration errors -/

/-- **C7, counterexample.** The claim says `status` called with a non-list
`messages` raises regardless of the quiet configuration. But `status`
begins with `if self._quiet: return`, which runs *before* the
`isinstance(messages, list)` check: with `quiet = true` and a non-list
`messages`, `status` returns normally and no error is ever raised. -/
theorem C7_cex :
    status (fun _ => "") (fun _ => "")
      ⟨true, true, 1, 0, false, none, none, MessagesArg.nonList⟩ =
      Except.ok [] := by
  rfl

/-- **C7, amended.** `prompt` called with a kind other than `bool`,
`select`, or `string` raises an error to the caller, immediately and
regardless of any other configuration; `status` called with a non-list
`messages` raises an error to the caller whenever the printer is not
quiet, regardless of the leadership configuration — but when the printer
is quiet, `status` returns without output and without raising. -/
theorem C7_amended (pn : ℚ → String) (pnx : PyExt → String)
    (inp : StatusInput) (kind : String) (opts : List String)
    (ns ui : String) :
    (kind ≠ "bool" → kind ≠ "select" → kind ≠ "string" →
      prompt kind opts ns ui = Except.error "Unknown prompt kind.") ∧
    (inp.quiet = false → inp.messages = MessagesArg.nonList →
      status pn pnx inp = Except.error "`messages` must be list!") ∧
    (inp.quiet = true → status pn pnx inp = Except.ok []) := by
  refine ⟨?_, ?_, ?_⟩
  · intro h1 h2 h3
    have hc : promptChoices kind opts ns = .error "Unknown prompt kind." := by
      unfold promptChoices
      rw [if_neg h1, if_neg h2, if_neg h3]
    unfold prompt
    rw [hc]
  · intro hq hm
    unfold status
    rw [if_neg (by simp [hq])]
    simp only [hm]
  · intro hq
    unfold status
    rw [if_pos hq]

/-- **C7, witness.** A concrete instantiation of `C7_amended`: an unknown
prompt kind raises, and a non-quiet `status` call with a non-list
`messages` raises. -/
theorem C7_witness :
    prompt "frobnicate" [] "None of the above." "x" =
      Except.error "Unknown prompt kind." ∧
    status (fun _ => "") (fun _ => "")
      ⟨false, true, 1, 0, false, none, none, MessagesArg.nonList⟩ =
      Except.error "`messages` must be list!" := by
  exact ⟨(C7_amended (fun _ => "") (fun _ => "")
      ⟨false, true, 1, 0, false, none, none, MessagesArg.nonList⟩
      "frobnicate" [] "None of the above." "x").1
        (by decide) (by decide) (by decide),
    (C7_amended (fun _ => "") (fun _ => "")
      ⟨false, true, 1, 0, false, none, none, MessagesArg.nonList⟩
      "frobnicate" [] "None of the above." "x").2.1 rfl rfl⟩

end MosfitPrinter

namespace MosfitPrinter

/-! ## Claim C8: monotonicity of the heatmap glyph map -/

/-- Evaluation of `ascii_fill` on a finite value as a plain conditional
chain. -/
theorem ascii_fill_fin (x p0 p1 p2 : ℚ) :
    ascii_fill (PyExt.fin x) p0 p1 p2 =
      if x < p0 then ' ' else if x < p1 then '.'
      else if x < p2 then '*' else '#' := by
  unfold ascii_fill PyExt.ltQ PyExt.isNan
  by_cases h0 : x < p0 <;> by_cases h1 : x < p1 <;> by_cases h2 : x < p2 <;>
    simp [h0, h1, h2]

/-- **C8, confirmed.** For every threshold triple `p0 ≤ p1 ≤ p2`,
`ascii_fill` is monotone non-decreasing in the (finite) cell value under
the glyph order BLANK < LOW < MID < HIGH, and a NaN cell value yields
BLANK for every threshold triple, including degenerate ones. -/
theorem C8_confirmed (p0 p1 p2 : ℚ) :
    (p0 ≤ p1 → p1 ≤ p2 → ∀ v w : ℚ, v ≤ w →
      glyphRank (ascii_fill (PyExt.fin v) p0 p1 p2) ≤
        glyphRank (ascii_fill (PyExt.fin w) p0 p1 p2)) ∧
    ascii_fill PyExt.nan p0 p1 p2 = ' ' := by
  constructor
  · intro h01 h12 v w hvw
    rw [ascii_fill_fin, ascii_fill_fin]
    split_ifs <;> simp_all [glyphRank] <;> linarith
  · unfold ascii_fill PyExt.isNan
    simp

/-- **C8, witness.** A concrete instantiation of `C8_confirmed` at the
triple `(0, 1/2, 1)` and cell values `0 ≤ 1`, together with the NaN
clause. -/
theorem C8_witness :
    glyphRank (ascii_fill (PyExt.fin 0) 0 (1/2) 1) ≤
      glyphRank (ascii_fill (PyExt.fin 1) 0 (1/2) 1) ∧
    ascii_fill PyExt.nan 0 (1/2) 1 = ' ' := by
  exact ⟨(C8_confirmed 0 (1/2) 1).1 (by norm_num) (by norm_num) 0 1
    (by norm_num), (C8_confirmed 0 (1/2) 1).2⟩

/-! ## Claim C3: the line packer never overflows the visible width -/

/-- Stripping color markers never lengthens a character list. -/
theorem stripMarkersAux_length_le :
    ∀ l : List Char, (stripMarkersAux l).length ≤ l.length
  | [] => Nat.le_refl _
  | [_] => Nat.le_refl _
  | c :: d :: rest => by
    unfold stripMarkersAux
    split
    · have := stripMarkersAux_length_le rest
      simp only [List.length_cons]
      omega
    · have := stripMarkersAux_length_le (d :: rest)
      simp only [List.length_cons] at *
      omega

/-- Invariant of the packing loop: assuming every pending item comes from
the original segment list and the line under construction is empty, short
enough, or itself an original segment, every emitted line is empty, short
enough, or an original segment. -/
theorem packLoop_inv (maxW : ℤ) (items : List String) :
    ∀ (rest : List String) (line : String) (li : ℕ),
      (∀ s ∈ rest, s ∈ items) →
      (line = "" ∨ (line.length : ℤ) ≤ maxW ∨ line ∈ items) →
      ∀ l ∈ packLoop maxW rest line li,
        l = "" ∨ (l.length : ℤ) ≤ maxW ∨ l ∈ items := by
  intro rest
  induction rest with
  | nil =>
    intro line li _ hline l hl
    unfold packLoop at hl
    rw [List.mem_singleton] at hl
    subst hl
    exact hline
  | cons item rest ih =>
    intro line li hsub hline l hl
    unfold packLoop at hl
    by_cases hc :
        ((line ++ (if li > 0 then " | " else "") ++ item).length : ℤ) > maxW
    · rw [if_pos hc] at hl
      rcases List.mem_cons.mp hl with h | h
      · subst h; exact hline
      · exact ih item 1 (fun s hs => hsub s (List.mem_cons_of_mem _ hs))
          (Or.inr (Or.inr (hsub item (List.mem_cons_self _ _)))) l h
    · rw [if_neg hc] at hl
      exact ih _ (li + 1) (fun s hs => hsub s (List.mem_cons_of_mem _ hs))
        (Or.inr (Or.inl (le_of_not_lt hc))) l hl

/-- **C3, confirmed.** For every wrap width `W ≥ 1` and every segment
list, the packing step never produces a line whose visible width exceeds
`W`, except a line that is a single original segment whose own visible
width exceeds `W`; such an over-long segment is alone on its line (the
line *is* the segment, unsplit). -/
theorem C3_confirmed (items : List String) (W : ℤ) (hW : 1 ≤ W) :
    ∀ l ∈ pack items W,
      (visibleWidth l : ℤ) ≤ W ∨ (l ∈ items ∧ W < (visibleWidth l : ℤ)) := by
  intro l hl
  rcases List.mem_cons.mp hl with h | h
  · subst h
    left
    have : visibleWidth "" = 0 := rfl
    rw [this]
    exact_mod_cast le_trans zero_le_one hW
  · have hinv := packLoop_inv W items items "" 0 (fun _ hs => hs)
      (Or.inl rfl) l h
    by_cases hv : (visibleWidth l : ℤ) ≤ W
    · exact Or.inl hv
    · refine Or.inr ⟨?_, lt_of_not_le hv⟩
      rcases hinv with h1 | h2 | h3
      · exact absurd (by rw [h1]; exact_mod_cast le_trans zero_le_one hW) hv
      · refine absurd (le_trans ?_ h2) hv
        exact_mod_cast stripMarkersAux_length_le l.data
      · exact h3

/-- **C3, witness.** A concrete instantiation of `C3_confirmed`: packing
`["ab", "cd"]` at width 3 produces the line `"ab"`, whose visible width
is within the budget. -/
theorem C3_witness :
    (visibleWidth "ab" : ℤ) ≤ 3 ∨
      ("ab" ∈ ["ab", "cd"] ∧ (3 : ℤ) < (visibleWidth "ab" : ℤ)) := by
  exact C3_confirmed ["ab", "cd"] 3 (by norm_num) "ab" (by decide)

end MosfitPrinter

namespace MosfitPrinter

/-! ## Claim C6: the missing-message placeholder -/

/-- Unfolding `slotsChars` from the left. -/
theorem slotsChars_succ (n : ℕ) :
    slotsChars (n + 1) = '\x7b' :: '\x7d' :: ' ' :: slotsChars n := by
  unfold slotsChars
  rw [List.replicate_succ]
  rfl

/-- Unfolding `slotsChars` from the right. -/
theorem slotsChars_succ_right (n : ℕ) :
    slotsChars (n + 1) = slotsChars n ++ ['\x7b', '\x7d', ' '] := by
  unfold slotsChars
  rw [List.replicate_succ']
  simp

/-- The joined unstripped template body is `slotsChars n`. -/
theorem pyJoin_replicate_slots (n : ℕ) :
    (pyJoin (List.replicate n "\x7b\x7d ")).data = slotsChars n := by
  show ((List.replicate n "\x7b\x7d ").map String.data).flatten = slotsChars n
  induction n with
  | zero => rfl
  | succ n ih =>
    rw [List.replicate_succ, List.map_cons, List.flatten_cons, ih,
      slotsChars_succ n]
    rfl

/-- Stripping the joined template body removes exactly its trailing
space. -/
theorem pyStripChars_slots :
    ∀ n, pyStripChars (slotsChars n) =
      match n with
      | 0 => []
      | n + 1 => slotsChars n ++ ['\x7b', '\x7d']
  | 0 => rfl
  | n + 1 => by
    unfold pyStripChars
    rw [slotsChars_succ n, List.dropWhile_cons]
    simp only [show isPySpace '\x7b' = false from rfl, Bool.false_eq_true,
      if_false]
    rw [← slotsChars_succ n, slotsChars_succ_right n]
    simp only [List.reverse_append, List.dropWhile_cons]
    simp [show isPySpace ' ' = true from rfl,
      show isPySpace '\x7d' = false from rfl]

/-- Prepending a non-brace character does not change the slot count. -/
theorem slotCount_cons_ne (c : Char) (hc : ¬c = '\x7b') (l : List Char) :
    slotCount (c :: l) = slotCount l := by
  cases l with
  | nil => rfl
  | cons b rest =>
    have e : slotCount (c :: b :: rest) =
        if c = '\x7b' ∧ b = '\x7d' then slotCount rest + 1
        else slotCount (b :: rest) := rfl
    rw [e, if_neg (fun h => hc h.1)]

/-- Prepending brace-free text does not change the slot count. -/
theorem slotCount_append_noBrace :
    ∀ xs : List Char, (∀ c ∈ xs, ¬c = '\x7b') →
      ∀ l, slotCount (xs ++ l) = slotCount l
  | [], _, _ => rfl
  | x :: xs, h, l => by
    rw [List.cons_append, slotCount_cons_ne x (h x (List.mem_cons_self _ _))]
    exact slotCount_append_noBrace xs (fun c hc => h c (List.mem_cons_of_mem _ hc)) l

/-- A leading slot contributes exactly one to the slot count. -/
theorem slotCount_slot_cons (m : List Char) :
    slotCount ('\x7b' :: '\x7d' :: m) = slotCount m + 1 := by
  have e : slotCount ('\x7b' :: '\x7d' :: m) =
      if ('\x7b' : Char) = '\x7b' ∧ ('\x7d' : Char) = '\x7d' then
        slotCount m + 1
      else slotCount ('\x7d' :: m) := rfl
  rw [e, if_pos ⟨rfl, rfl⟩]

/-- Each repetition of the slot block contributes exactly one slot. -/
theorem slotCount_slots (n : ℕ) (l : List Char) :
    slotCount (slotsChars n ++ l) = n + slotCount l := by
  induction n with
  | zero => simp [slotsChars]
  | succ n ih =>
    rw [slotsChars_succ n]
    show slotCount ('\x7b' :: '\x7d' :: (' ' :: (slotsChars n ++ l))) = _
    rw [slotCount_slot_cons, slotCount_cons_ne ' ' (by decide), ih]
    omega

/-- Formatting past a non-brace character just emits it. -/
theorem pyFormatAux_cons_ne (c : Char) (h1 : ¬c = '\x7b') (h2 : ¬c = '\x7d')
    (l : List Char) (args : List String) :
    pyFormatAux (c :: l) args = (pyFormatAux l args).map (fun t => c :: t) := by
  cases l with
  | nil => simp [pyFormatAux, h1, h2]
  | cons b rest =>
    have e : pyFormatAux (c :: b :: rest) args =
        if c = '\x7b' then
          if b = '\x7d' then
            match args with
            | [] => none
            | r :: args2 => (pyFormatAux rest args2).map (fun t => r.data ++ t)
          else none
        else if c = '\x7d' then none
        else (pyFormatAux (b :: rest) args).map (fun t => c :: t) := rfl
    rw [e, if_neg h1, if_neg h2]

/-- Formatting past brace-free text cannot fail and just emits it. -/
theorem pyFormatAux_append_noBrace :
    ∀ xs : List Char, (∀ c ∈ xs, ¬c = '\x7b' ∧ ¬c = '\x7d') →
      ∀ (l : List Char) (args : List String),
      pyFormatAux (xs ++ l) args = (pyFormatAux l args).map (fun t => xs ++ t)
  | [], _, l, args => by simp
  | x :: xs, h, l, args => by
    rw [List.cons_append,
      pyFormatAux_cons_ne x (h x (List.mem_cons_self _ _)).1
        (h x (List.mem_cons_self _ _)).2,
      pyFormatAux_append_noBrace xs
        (fun c hc => h c (List.mem_cons_of_mem _ hc)) l args,
      Option.map_map]
    rfl

/-- The `isSome` state of an `Option` is unchanged by `map`. -/
theorem optionIsSomeMap {α β : Type} (f : α → β) (o : Option α) :
    (o.map f).isSome = o.isSome := by
  cases o <;> rfl

/-- Formatting a leading slot consumes exactly the first argument. -/
theorem pyFormatAux_slot_cons (m : List Char) (r : String)
    (args2 : List String) :
    pyFormatAux ('\x7b' :: '\x7d' :: m) (r :: args2) =
      (pyFormatAux m args2).map (fun t => r.data ++ t) := by
  have e : pyFormatAux ('\x7b' :: '\x7d' :: m) (r :: args2) =
      if ('\x7b' : Char) = '\x7b' then
        if ('\x7d' : Char) = '\x7d' then
          (pyFormatAux m args2).map (fun t => r.data ++ t)
        else none
      else if ('\x7b' : Char) = '\x7d' then none
      else (pyFormatAux ('\x7d' :: m) (r :: args2)).map
        (fun t => '\x7b' :: t) := rfl
  rw [e, if_pos rfl, if_pos rfl]

/-- Formatting `n` slot blocks succeeds iff formatting the remainder with
the first `n` arguments consumed succeeds, provided at least `n` arguments
are available. -/
theorem pyFormatAux_slots_isSome (n : ℕ) :
    ∀ (args : List String) (l : List Char), n ≤ args.length →
      (pyFormatAux (slotsChars n ++ l) args).isSome =
        (pyFormatAux l (args.drop n)).isSome := by
  induction n with
  | zero => intro args l _; simp [slotsChars]
  | succ n ih =>
    intro args l hlen
    match args with
    | [] => simp at hlen
    | r :: args2 =>
      rw [slotsChars_succ n]
      show (pyFormatAux ('\x7b' :: '\x7d' :: (' ' :: (slotsChars n ++ l)))
        (r :: args2)).isSome = _
      rw [pyFormatAux_slot_cons,
        pyFormatAux_cons_ne ' ' (by decide) (by decide),
        optionIsSomeMap, optionIsSomeMap, ih args2 l (by simpa using hlen),
        List.drop_succ_cons]

/-- **C6, confirmed.** For every message name absent from the string
catalog and every positional-argument list of length `n`, the placeholder
template `message` builds starts with the visible `< Message not found [`
marker, contains exactly `n` positional argument slots, and formatting it
with the `n` arguments never throws. -/
theorem C6_confirmed (n : ℕ) (reps : List String) (h : reps.length = n) :
    (messageMissingText n).data.take 21 = "< Message not found [".data ∧
    slotCount (messageMissingText n).data = n ∧
    (pyFormat (messageMissingText n) reps).isSome = true := by
  have hdata : (messageMissingText n).data =
      "< Message not found [".data ++
        pyStripChars (slotsChars n) ++ "] >".data := by
    unfold messageMissingText pyStrip
    rw [String.data_append, String.data_append, pyJoin_replicate_slots]
  have htake : (messageMissingText n).data.take 21 =
      "< Message not found [".data := by
    rw [hdata, List.append_assoc,
      show (21 : ℕ) = "< Message not found [".data.length from rfl,
      List.take_left]
  refine ⟨htake, ?_, ?_⟩
  · rw [hdata, List.append_assoc,
      slotCount_append_noBrace "< Message not found [".data (by decide)]
    cases n with
    | zero => rw [pyStripChars_slots]; rfl
    | succ n =>
      rw [pyStripChars_slots]
      show slotCount ((slotsChars n ++ ['\x7b', '\x7d']) ++ "] >".data) = _
      rw [List.append_assoc, slotCount_slots]
      rfl
  · unfold pyFormat
    rw [optionIsSomeMap, hdata, List.append_assoc,
      pyFormatAux_append_noBrace "< Message not found [".data (by decide),
      optionIsSomeMap]
    cases n with
    | zero =>
      rw [pyStripChars_slots]
      rfl
    | succ n =>
      rw [pyStripChars_slots]
      show (pyFormatAux ((slotsChars n ++ ['\x7b', '\x7d']) ++ "] >".data)
        reps).isSome = true
      rw [List.append_assoc,
        pyFormatAux_slots_isSome n reps _ (by omega)]
      obtain ⟨r, hr⟩ := List.length_eq_one.mp
        (by rw [List.length_drop, h]; omega : (reps.drop n).length = 1)
      rw [hr]
      rfl

/-- **C6, witness.** A concrete instantiation of `C6_confirmed`: a
missing key with two expected arguments yields a placeholder with exactly
two slots, and formatting succeeds. -/
theorem C6_witness :
    (messageMissingText 2).data.take 21 = "< Message not found [".data ∧
    slotCount (messageMissingText 2).data = 2 ∧
    (pyFormat (messageMissingText 2) ["a", "b"]).isSome = true :=
  C6_confirmed 2 ["a", "b"] rfl

end MosfitPrinter

namespace MosfitPrinter

/-! ## Claim C10: idempotence of `colorify` -/

/-- `hasPat` on a two-or-more element list, as an equation. -/
theorem hasPat_cons₂ (p q c d : Char) (rest : List Char) :
    hasPat p q (c :: d :: rest) =
      (((c == p) && (d == q)) || hasPat p q (d :: rest)) := rfl

/-- `replace2` on a two-or-more element list, as an equation. -/
theorem replace2_cons₂ (p q : Char) (rep : List Char) (c d : Char)
    (rest : List Char) :
    replace2 p q rep (c :: d :: rest) =
      if c = p ∧ d = q then rep ++ replace2 p q rep rest
      else c :: replace2 p q rep (d :: rest) := rfl

/-- A cons cell whose head is not the pattern start cannot begin a
pattern occurrence. -/
theorem hasPat_cons_of_ne (p q c : Char) (hc : ¬c = p) (l : List Char) :
    hasPat p q (c :: l) = hasPat p q l := by
  cases l with
  | nil => rfl
  | cons b t =>
    rw [hasPat_cons₂]
    have hb : (c == p) = false := by simp [hc]
    rw [hb, Bool.false_and, Bool.false_or]

/-- Pattern freedom is inherited by the tail. -/
theorem hasPat_tail (p q c : Char) (l : List Char)
    (h : hasPat p q (c :: l) = false) : hasPat p q l = false := by
  cases l with
  | nil => rfl
  | cons b t =>
    rw [hasPat_cons₂, Bool.or_eq_false_iff] at h
    exact h.2

/-- A prefix free of the pattern-start character contributes no pattern
occurrence, not even across the junction. -/
theorem hasPat_append_of_not_mem (p q : Char) :
    ∀ (xs ys : List Char), p ∉ xs → hasPat p q (xs ++ ys) = hasPat p q ys
  | [], _, _ => rfl
  | x :: xs, ys, h => by
    rw [List.cons_append,
      hasPat_cons_of_ne p q x
        (fun hx => h (by rw [← hx]; exact List.mem_cons_self x xs)) _,
      hasPat_append_of_not_mem p q xs ys
        (fun hm => h (List.mem_cons_of_mem _ hm))]

/-- The head of a `replace2` output is the head of the input or the head
of the replacement. -/
theorem replace2_head (p q e : Char) (rtail : List Char) :
    ∀ l : List Char,
      (replace2 p q (e :: rtail) l).head? = l.head? ∨
      (replace2 p q (e :: rtail) l).head? = some e
  | [] => Or.inl rfl
  | [c] => Or.inl rfl
  | c :: d :: rest => by
    rw [replace2_cons₂]
    by_cases h : c = p ∧ d = q
    · rw [if_pos h]; exact Or.inr rfl
    · rw [if_neg h]; exact Or.inl rfl

/-- Prepending a character preserves pattern freedom when the character is
not the pattern start, or when the tail cannot begin with the pattern
end. -/
theorem hasPat_cons_false (p q c : Char) (l : List Char)
    (hl : hasPat p q l = false)
    (hcq : ¬c = p ∨ (∀ x, l.head? = some x → ¬x = q)) :
    hasPat p q (c :: l) = false := by
  cases l with
  | nil => rfl
  | cons b t =>
    rw [hasPat_cons₂, hl, Bool.or_false]
    rcases hcq with h | h
    · simp [h]
    · simp [h b rfl]

/-- Replacing an absent pattern is the identity. -/
theorem replace2_of_not_hasPat (p q : Char) (rep : List Char) :
    ∀ l : List Char, hasPat p q l = false → replace2 p q rep l = l
  | [], _ => rfl
  | [_], _ => rfl
  | c :: d :: rest, h => by
    have hcd : ¬(c = p ∧ d = q) := by
      intro hpq
      rw [hasPat_cons₂, Bool.or_eq_false_iff] at h
      simp [hpq.1, hpq.2] at h
    rw [replace2_cons₂, if_neg hcd,
      replace2_of_not_hasPat p q rep (d :: rest) (hasPat_tail p q c _ h)]

/-- After a full `replace2` pass, its own pattern no longer occurs,
provided the replacement contains no pattern start and does not begin with
the pattern end. -/
theorem hasPat_replace2_self (p q e : Char) (rtail : List Char)
    (hp : p ∉ (e :: rtail)) (he : ¬e = q) :
    ∀ l : List Char, hasPat p q (replace2 p q (e :: rtail) l) = false
  | [] => rfl
  | [_] => rfl
  | c :: d :: rest => by
    rw [replace2_cons₂]
    by_cases h : c = p ∧ d = q
    · rw [if_pos h, hasPat_append_of_not_mem p q _ _ hp]
      exact hasPat_replace2_self p q e rtail hp he rest
    · rw [if_neg h]
      apply hasPat_cons_false
      · exact hasPat_replace2_self p q e rtail hp he (d :: rest)
      · by_cases hc : c = p
        · refine Or.inr (fun x hx hxq => ?_)
          rcases replace2_head p q e rtail (d :: rest) with hh | hh
          · rw [hh] at hx
            have hxd : d = x := Option.some.inj hx
            exact h ⟨hc, by rw [hxd, hxq]⟩
          · rw [hh] at hx
            exact he (by rw [Option.some.inj hx.symm] at hxq; exact hxq)
        · exact Or.inl hc

/-- A `replace2` pass for one marker preserves the absence of any other
pattern with the same start character, provided the replacement contains
no pattern start and does not begin with the other pattern's end. -/
theorem hasPat_replace2_other (p q b e : Char) (rtail : List Char)
    (hp : p ∉ (e :: rtail)) (heb : ¬e = b) :
    ∀ l : List Char, hasPat p b l = false →
      hasPat p b (replace2 p q (e :: rtail) l) = false
  | [], _ => rfl
  | [_], _ => rfl
  | c :: d :: rest, h => by
    rw [replace2_cons₂]
    by_cases hcd : c = p ∧ d = q
    · rw [if_pos hcd, hasPat_append_of_not_mem p b _ _ hp]
      exact hasPat_replace2_other p q b e rtail hp heb rest
        (hasPat_tail p b d _ (hasPat_tail p b c _ h))
    · rw [if_neg hcd]
      apply hasPat_cons_false
      · exact hasPat_replace2_other p q b e rtail hp heb (d :: rest)
          (hasPat_tail p b c _ h)
      · by_cases hc : c = p
        · refine Or.inr (fun x hx hxb => ?_)
          rcases replace2_head p q e rtail (d :: rest) with hh | hh
          · rw [hh] at hx
            have hxd : d = x := Option.some.inj hx
            rw [hasPat_cons₂, Bool.or_eq_false_iff] at h
            have h1 := h.1
            rw [hc, hxd, hxb] at h1
            simp at h1
          · rw [hh] at hx
            exact heb (by rw [Option.some.inj hx.symm] at hxb; exact hxb)
        · exact Or.inl hc

/-- Later passes of the `colorify` fold preserve the absence of a marker
pattern, for a well-formed code table. -/
theorem foldl_replace2_preserve (b : Char) (hb : ¬('\x1b' : Char) = b) :
    ∀ (codes : List (Char × List Char)) (l : List Char),
      (∀ pr ∈ codes, ∃ t, pr.2 = '\x1b' :: t ∧ ('!' : Char) ∉ pr.2) →
      hasPat '!' b l = false →
      hasPat '!' b
        (codes.foldl (fun acc pr => replace2 '!' pr.1 pr.2 acc) l) = false
  | [], _, _, h => h
  | pr :: codes, l, hgood, h => by
    rw [List.foldl_cons]
    apply foldl_replace2_preserve b hb codes _
      (fun p' hm => hgood p' (List.mem_cons_of_mem _ hm))
    obtain ⟨t, ht, hnb⟩ := hgood pr (List.mem_cons_self _ _)
    rw [ht]
    exact hasPat_replace2_other '!' pr.1 b '\x1b' t (ht ▸ hnb) hb l h

/-- After the whole `colorify` fold, no marker pattern of the table
occurs, for a well-formed code table. -/
theorem foldl_replace2_clean :
    ∀ (codes : List (Char × List Char)) (l : List Char)
      (pr : Char × List Char),
      (∀ p' ∈ codes, (∃ t, p'.2 = '\x1b' :: t ∧ ('!' : Char) ∉ p'.2) ∧
        ¬('\x1b' : Char) = p'.1) →
      pr ∈ codes →
      hasPat '!' pr.1
        (codes.foldl (fun acc q => replace2 '!' q.1 q.2 acc) l) = false
  | [], _, _, _, hm => absurd hm (List.not_mem_nil _)
  | pr0 :: codes, l, pr, hgood, hm => by
    rw [List.foldl_cons]
    rcases List.mem_cons.mp hm with rfl | hm'
    · obtain ⟨⟨t, ht, hnb⟩, hne⟩ := hgood pr (List.mem_cons_self _ _)
      apply foldl_replace2_preserve pr.1 hne codes _
        (fun p' hp' => (hgood p' (List.mem_cons_of_mem _ hp')).1)
      rw [ht]
      exact hasPat_replace2_self '!' pr.1 '\x1b' t (ht ▸ hnb) hne l
    · exact foldl_replace2_clean codes _ pr
        (fun p' hp' => hgood p' (List.mem_cons_of_mem _ hp')) hm'

/-- The `colorify` fold is the identity on a text free of every marker
pattern of the table. -/
theorem foldl_replace2_id :
    ∀ (codes : List (Char × List Char)) (l : List Char),
      (∀ pr ∈ codes, hasPat '!' pr.1 l = false) →
      codes.foldl (fun acc q => replace2 '!' q.1 q.2 acc) l = l
  | [], _, _ => rfl
  | pr :: codes, l, h => by
    rw [List.foldl_cons,
      replace2_of_not_hasPat '!' pr.1 pr.2 l (h pr (List.mem_cons_self _ _)),
      foldl_replace2_id codes l (fun p' hp' => h p' (List.mem_cons_of_mem _ hp'))]

/-- The concrete `ansi.codes` table is well-formed: every escape sequence
starts with `'\x1b'` and contains no `'!'`, and no marker character is
`'\x1b'`. -/
theorem ansiCodes_good :
    ∀ pr ∈ ansiCodes, ((∃ t, pr.2 = '\x1b' :: t ∧ ('!' : Char) ∉ pr.2) ∧
      ¬('\x1b' : Char) = pr.1) := by
  intro pr hpr
  simp only [ansiCodes, List.mem_cons, List.not_mem_nil, or_false] at hpr
  rcases hpr with rfl | rfl | rfl | rfl | rfl | rfl | rfl | rfl | rfl <;>
    exact ⟨⟨_, rfl, by decide⟩, by decide⟩

/-- **C10, confirmed.** `colorify` is idempotent: every substituted ANSI
escape sequence contains no `'!'` and starts with the escape character, so
a substitution can never create a new two-character marker, and a fully
colorified text is a fixed point. -/
theorem C10_confirmed (t : String) : colorify (colorify t) = colorify t := by
  have h : colorifyChars (colorifyChars t.data) = colorifyChars t.data :=
    foldl_replace2_id ansiCodes (colorifyChars t.data)
      (fun pr hpr => foldl_replace2_clean ansiCodes t.data pr ansiCodes_good hpr)
  show String.mk (colorifyChars (colorifyChars t.data)) =
    String.mk (colorifyChars t.data)
  rw [h]

end MosfitPrinter

namespace MosfitPrinter

/-! ## Claim C9: the rendered two-child tree -/

/-- **C9, confirmed.** `tree` applied to the single-root forest
`\x7bA: \x7bB: \x7b\x7d, C: \x7b\x7d\x7d\x7d` renders three lines; the
output contains exactly one corner glyph `'└'` and it is on the line
labelled `C`, exactly one continuing-branch glyph `'├'` and it is on the
line labelled `B`; `A`'s line carries no connector glyph at all (only the
fixed two-space margin), while `B`'s and `C`'s lines are indented one
level (margin, connector, space, label). -/
theorem C9_confirmed :
    tree [("A", PyTree.node [("B", PyTree.node []), ("C", PyTree.node [])])] =
      [treeRoot "A" (PyTree.node [("B", PyTree.node []), ("C", PyTree.node [])])] ∧
    treeRoot "A" (PyTree.node [("B", PyTree.node []), ("C", PyTree.node [])]) =
      [[' ', ' ', 'A', ':'],
       [' ', ' ', '├', ' ', 'B'],
       [' ', ' ', '└', ' ', 'C']] ∧
    ((treeRoot "A" (PyTree.node [("B", PyTree.node []),
        ("C", PyTree.node [])])).map (fun l => l.count '└')).sum = 1 ∧
    ((treeRoot "A" (PyTree.node [("B", PyTree.node []),
        ("C", PyTree.node [])])).map (fun l => l.count '├')).sum = 1 ∧
    ((treeRoot "A" (PyTree.node [("B", PyTree.node []),
        ("C", PyTree.node [])])).getD 2 []).count '└' = 1 ∧
    'C' ∈ (treeRoot "A" (PyTree.node [("B", PyTree.node []),
        ("C", PyTree.node [])])).getD 2 [] ∧
    ((treeRoot "A" (PyTree.node [("B", PyTree.node []),
        ("C", PyTree.node [])])).getD 1 []).count '├' = 1 ∧
    'B' ∈ (treeRoot "A" (PyTree.node [("B", PyTree.node []),
        ("C", PyTree.node [])])).getD 1 [] ∧
    ((treeRoot "A" (PyTree.node [("B", PyTree.node []),
        ("C", PyTree.node [])])).getD 0 []).count '└' = 0 ∧
    ((treeRoot "A" (PyTree.node [("B", PyTree.node []),
        ("C", PyTree.node [])])).getD 0 []).count '├' = 0 ∧
    ((treeRoot "A" (PyTree.node [("B", PyTree.node []),
        ("C", PyTree.node [])])).getD 0 []).count '│' = 0 := by
  refine ⟨rfl, ?_, ?_, ?_, ?_, ?_, ?_, ?_, ?_, ?_, ?_⟩ <;> decide

end MosfitPrinter
